import Mathlib

/-!
Verification of the tixly-server seat-booking lifecycle engine.

Shallow embedding of the booking service (`src/services/booking.service.js`),
the active Booking model helpers (`isExpired`, `canBeConfirmed`,
`canBeCancelled`, `canBeRefunded`, `prepareForCreation`,
`prepareForConfirmation`, `prepareForRefund`) and the booking routes
(`src/routes/booking.routes.js`).  DynamoDB tables are modelled as lists of
records with unique primary keys; ISO-8601 date strings are modelled as
naturals (milliseconds since the epoch — lexicographic order on the strings
agrees with numeric order on the instants).
-/

namespace Tixly

/-- Booking status values of the active Booking model's Joi schema:
`status: Joi.string().valid('PENDING', 'CONFIRMED', 'REFUNDED')`. -/
inductive Status where
  | PENDING
  | CONFIRMED
  | REFUNDED
deriving DecidableEq, Repr

/-- Instants: milliseconds since the Unix epoch.  ISO strings of the shape the
code writes compare lexicographically in the same order as their instants. -/
abbrev Time := Nat

/-- The `expiresAt` attribute of a stored booking: an ISO date string, an
explicit `null` (written by `confirmBooking`), or absent from the item. -/
inductive ExpiresVal where
  | absent
  | nullv
  | time (t : Time)
deriving DecidableEq, Repr

/-- The `paymentInfo` object the confirm route builds: last four card digits,
cardholder name, payment date. -/
structure PaymentInfo where
  cardLastFour : String
  cardholderName : String
  paymentDate : Time
deriving DecidableEq, Repr

/-- One item of the `Tickets` table, with the attributes the booking service
reads or writes.  `takenSeats` is the booking's requested seat list (the code
reuses the event-side field name). -/
structure Booking where
  id : Nat
  eventId : Nat
  userId : Nat
  takenSeats : List Nat
  pricePerSeat : Nat
  name : String
  email : String
  phoneNumber : String
  status : Status
  purchaseDate : Option Time
  refundedAt : Option Time
  paymentInfo : Option PaymentInfo
  expiresAt : ExpiresVal
  createdAt : Time
  updatedAt : Time
deriving DecidableEq, Repr

/-- One item of the `Events` table, restricted to the attributes the booking
lifecycle touches. -/
structure Event where
  id : Nat
  takenSeats : List Nat
  updatedAt : Time
deriving DecidableEq, Repr

/-- The two DynamoDB tables the booking service operates on. -/
structure Store where
  bookings : List Booking
  events : List Event
deriving DecidableEq, Repr

/-- `new Date(booking.expiresAt) < new Date()` as written in the confirm
route: a present ISO string compares by its instant, `null` coerces to the
epoch (`new Date(null)` is instant 0), and a missing attribute yields an
Invalid Date, every `<` comparison with which is false. -/
def jsDateLtNow (e : ExpiresVal) (now : Time) : Bool :=
  match e with
  | .time t => decide (t < now)
  | .nullv => decide (0 < now)
  | .absent => false

/-- DynamoDB filter `expiresAt < :now` on a string attribute: a NULL-typed or
missing attribute never satisfies a string comparison. -/
def dynamoExpiresLt (e : ExpiresVal) (now : Time) : Bool :=
  match e with
  | .time t => decide (t < now)
  | .nullv => false
  | .absent => false

/-- `BookingModel.isExpired`: false unless the status is PENDING; false when
`expiresAt` is falsy (`null` or absent); otherwise compare the deadline to the
current time. -/
def isExpired (b : Booking) (now : Time) : Bool :=
  if b.status ≠ .PENDING then false
  else
    match b.expiresAt with
    | .absent => false
    | .nullv => false
    | .time t => decide (t < now)

/-- `BookingModel.canBeConfirmed`: PENDING and not expired. -/
def canBeConfirmed (b : Booking) (now : Time) : Bool :=
  decide (b.status = .PENDING) && !(isExpired b now)

/-- `BookingModel.canBeCancelled`: PENDING or CONFIRMED. -/
def canBeCancelled (b : Booking) : Bool :=
  decide (b.status = .PENDING) || decide (b.status = .CONFIRMED)

/-- `booking.purchaseDate || booking.createdAt` in `canBeRefunded`. -/
def purchaseRef (b : Booking) : Time :=
  b.purchaseDate.getD b.createdAt

/-- The 24-hour refund window in milliseconds. -/
def refundWindowMs : Int := 24 * 60 * 60 * 1000

/-- `BookingModel.canBeRefunded`: CONFIRMED and
`(now - purchaseDate) / 3600000 ≤ 24`, i.e. the signed millisecond difference
is at most 24 hours. -/
def canBeRefunded (b : Booking) (now : Time) : Bool :=
  if b.status ≠ .CONFIRMED then false
  else decide ((now : Int) - (purchaseRef b : Int) ≤ refundWindowMs)

/-- `GetCommand` on the `Tickets` table by primary key. -/
def findBooking (s : Store) (tid : Nat) : Option Booking :=
  s.bookings.find? (fun b => b.id == tid)

/-- `GetCommand` on the `Events` table by primary key. -/
def findEvent (s : Store) (eid : Nat) : Option Event :=
  s.events.find? (fun e => e.id == eid)

/-- `[...new Set(l)]`: deduplicate a list, keeping first occurrences. -/
def jsSetDedup (l : List Nat) : List Nat :=
  l.foldl (fun acc x => if x ∈ acc then acc else acc ++ [x]) []

/-- `getBookedSeats`: the event's committed `takenSeats`, plus the seats of
every booking for the event whose status is PENDING (the scan filter is
`eventId = :eventId AND #status = :pending`; there is no condition on
`expiresAt`), deduplicated.  Returns `[]` when the event does not exist. -/
def getBookedSeats (s : Store) (eventId : Nat) : List Nat :=
  match findEvent s eventId with
  | none => []
  | some ev =>
    let pendingTickets :=
      s.bookings.filter (fun b => b.eventId == eventId && decide (b.status = .PENDING))
    let confirmedSeats := ev.takenSeats
    let pendingSeats := pendingTickets.foldl (fun acc t => acc ++ t.takenSeats) []
    jsSetDedup (confirmedSeats ++ pendingSeats)

/-- The event-side seat commit `confirmBooking` issues:
`SET takenSeats = list_append(if_not_exists(takenSeats, :emptyList), :seats),
updatedAt = :updatedAt`. -/
def commitSeats (ev : Event) (seats : List Nat) (now : Time) : Event :=
  { ev with takenSeats := ev.takenSeats ++ seats, updatedAt := now }

/-- The event-side seat release `cancelBooking` and `refundBooking` issue:
`(event.takenSeats || []).filter((seat) => !booking.takenSeats.includes(seat))`
written back with a fresh `updatedAt`. -/
def releaseSeats (ev : Event) (seats : List Nat) (now : Time) : Event :=
  { ev with takenSeats := ev.takenSeats.filter (fun s => !(seats.contains s)),
            updatedAt := now }

/-- Body of `POST /bookings` as destructured by the route
(`{ eventId, seats, pricePerSeat, name, email, phone }`): `eventId` and
`seats` are `none` when missing from the request (or, for `seats`, not an
array); `pricePerSeat` is `none` when absent.  The `status` field models a
caller-supplied status: neither the route nor `createBooking` ever reads it
(the service builds the item literal with `status: 'PENDING'`). -/
structure CreateInput where
  eventId : Option Nat
  seats : Option (List Nat)
  pricePerSeat : Option Nat
  status : Option Status
  name : String
  email : String
  phone : String
deriving DecidableEq, Repr

/-- `BookingModel.validate` (Joi) applied to the item `createBooking` builds.
The schema checks that can fail on data representable in this model are
`takenSeats: min(1)` and `email: Joi.string().email().allow('')` — the empty
string is allowed and a non-empty value must pass Joi's email-format test,
abstracted here as the predicate `emailValid`.  The remaining checks hold by
construction of the item and of the model's types: `status` is the literal
`'PENDING'`, `pricePerSeat` (after `|| 0`) is a number that is ≥ 0 in the
model, `purchaseDate` is an ISO date, `name`/`phoneNumber` are strings with
`''` allowed, and `eventId`/`userId` are the model's abstract identifiers. -/
def validateBooking (emailValid : String → Bool) (email : String) (seats : List Nat) : Bool :=
  decide (seats ≠ []) && (email == "" || emailValid email)

/-- `createBooking`: build the item literal — `status: 'PENDING'` and
`purchaseDate: now` hardcoded, `pricePerSeat || 0`, `name`/`email` with an
`|| ''` fallback that is the identity on strings, and `phoneNumber` always
`''` because the service reads `bookingData.phoneNumber` while the route
supplies the field as `phone` — then run `BookingModel.validate` (Joi) on it;
on success `prepareForCreation` adds the id and
`expiresAt = calculateExpirationTime()` = now plus the configured hold
duration in minutes, and the item is persisted.  A validation failure throws
(`none`) and nothing is persisted. -/
def createBooking (input : CreateInput) (uid freshId eid : Nat) (seats : List Nat)
    (holdMinutes : Nat) (emailValid : String → Bool) (now : Time) : Option Booking :=
  if validateBooking emailValid input.email seats then
    some
      { id := freshId
        eventId := eid
        userId := uid
        takenSeats := seats
        pricePerSeat := input.pricePerSeat.getD 0
        name := input.name
        email := input.email
        phoneNumber := ""
        status := .PENDING
        purchaseDate := some now
        refundedAt := none
        paymentInfo := none
        expiresAt := .time (now + holdMinutes * 60000)
        createdAt := now
        updatedAt := now }
  else none

/-- Result of `POST /bookings`.  `serverError` is the route's catch-all 500,
reached when `createBooking` throws on Joi validation. -/
inductive CreateRes where
  | validationError
  | seatConflict (conflictingSeats : List Nat)
  | created (b : Booking)
  | serverError
deriving DecidableEq, Repr

/-- `POST /bookings`: reject missing `eventId`/`seats` or an empty seat list
with 400; compute `conflictingSeats = seats.filter(s => bookedSeats.includes(s))`
and reject with 409 naming them when non-empty; otherwise call
`createBooking`, which persists the new booking with `PutCommand` — or throws
on Joi validation, which the route's catch answers as 500 with nothing
persisted. -/
def postBooking (s : Store) (input : CreateInput) (uid freshId : Nat)
    (holdMinutes : Nat) (emailValid : String → Bool) (now : Time) : CreateRes × Store :=
  match input.eventId, input.seats with
  | some eid, some seats =>
    if seats.isEmpty then (.validationError, s)
    else
      let bookedSeats := getBookedSeats s eid
      let conflictingSeats := seats.filter (fun seat => bookedSeats.contains seat)
      if conflictingSeats.isEmpty then
        match createBooking input uid freshId eid seats holdMinutes emailValid now with
        | some b => (.created b, { s with bookings := s.bookings ++ [b] })
        | none => (.serverError, s)
      else (.seatConflict conflictingSeats, s)
  | _, _ => (.validationError, s)

/-- Errors thrown by the booking service. -/
inductive ServiceError where
  | notFound
  | cannotConfirm
  | cannotCancel
  | notEligible
deriving DecidableEq, Repr

/-- The ticket-side update of `confirmBooking`, with values from
`BookingModel.prepareForConfirmation`:
`SET status = CONFIRMED, updatedAt = now, paymentInfo = pay,
purchaseDate = now, expiresAt = null`. -/
def applyConfirmUpdate (pay : PaymentInfo) (now : Time) (c : Booking) : Booking :=
  { c with status := .CONFIRMED
           updatedAt := now
           paymentInfo := some pay
           purchaseDate := some now
           expiresAt := .nullv }

/-- `confirmBooking`: look the booking up, throw if absent or not
`canBeConfirmed`; otherwise update the ticket (the code issues this update
twice with identical attribute values — once in the `Promise.all` pair and
once more to read back `ALL_NEW` — which is state-idempotent, so it is applied
once here) and upsert the event with the `list_append` seat commit
(an `UpdateCommand` on a missing key creates the item). -/
def confirmBooking (s : Store) (tid : Nat) (pay : PaymentInfo) (now : Time) :
    Except ServiceError (Booking × Store) :=
  match findBooking s tid with
  | none => .error .notFound
  | some booking =>
    if !(canBeConfirmed booking now) then .error .cannotConfirm
    else
      let bookings :=
        s.bookings.map (fun c => if c.id == tid then applyConfirmUpdate pay now c else c)
      let events :=
        if s.events.any (fun e => e.id == booking.eventId) then
          s.events.map (fun e =>
            if e.id == booking.eventId then commitSeats e booking.takenSeats now else e)
        else
          s.events ++ [{ id := booking.eventId
                         takenSeats := [] ++ booking.takenSeats
                         updatedAt := now }]
      .ok (applyConfirmUpdate pay now booking, { bookings := bookings, events := events })

/-- `cancelBooking`: look the booking up, throw if absent or not
`canBeCancelled`; release its seats from the event only when the status was
CONFIRMED (skipping the release when the event item is missing); delete the
ticket. -/
def cancelBooking (s : Store) (tid : Nat) (now : Time) : Except ServiceError Store :=
  match findBooking s tid with
  | none => .error .notFound
  | some booking =>
    if !(canBeCancelled booking) then .error .cannotCancel
    else
      let events :=
        if booking.status = .CONFIRMED then
          s.events.map (fun e =>
            if e.id == booking.eventId then releaseSeats e booking.takenSeats now else e)
        else s.events
      .ok { bookings := s.bookings.filter (fun b => b.id != tid), events := events }

/-- The ticket-side update of `refundBooking`, with values from
`BookingModel.prepareForRefund`. -/
def applyRefundUpdate (now : Time) (c : Booking) : Booking :=
  { c with status := .REFUNDED, refundedAt := some now, updatedAt := now }

/-- `refundBooking`: look the booking up; fail if absent or not
`canBeRefunded`, touching nothing (both checks precede every write);
otherwise update the ticket to REFUNDED and write the seat release back to
the event (skipped when the event item is missing).  The returned booking is
`{...booking, ...refundData}`. -/
def refundBooking (s : Store) (tid : Nat) (now : Time) :
    Except ServiceError Booking × Store :=
  match findBooking s tid with
  | none => (.error .notFound, s)
  | some booking =>
    if !(canBeRefunded booking now) then (.error .notEligible, s)
    else
      let bookings :=
        s.bookings.map (fun c => if c.id == tid then applyRefundUpdate now c else c)
      let events :=
        s.events.map (fun e =>
          if e.id == booking.eventId then releaseSeats e booking.takenSeats now else e)
      (.ok (applyRefundUpdate now booking), { bookings := bookings, events := events })

/-- `cleanupExpiredBookings`: scan for `#status = :pending AND expiresAt < :now`,
re-filter through `BookingModel.isExpired`, then issue one independent
`DeleteCommand` per expired booking.  All deletes are started before any is
awaited (`map` then `Promise.all`), so each is attempted regardless of the
others' outcomes; `deleteOk` is the per-booking success oracle.  The count
`{deleted: expiredBookings.length}` is returned only when no delete rejected
(otherwise `Promise.all` rethrows and nothing is returned). -/
def cleanupExpiredBookings (s : Store) (now : Time) (deleteOk : Nat → Bool) :
    Store × Option Nat :=
  let scanned :=
    s.bookings.filter (fun b => decide (b.status = .PENDING) && dynamoExpiresLt b.expiresAt now)
  let expiredBookings := scanned.filter (fun b => isExpired b now)
  let deleted := expiredBookings.filter (fun b => deleteOk b.id)
  let bookings := deleted.foldl (fun acc t => acc.filter (fun b => b.id != t.id)) s.bookings
  ({ s with bookings := bookings },
   if expiredBookings.all (fun b => deleteOk b.id) then some expiredBookings.length else none)

/-- Result of `POST /bookings/:ticketId/confirm`. -/
inductive ConfirmRes where
  | badRequest
  | notFound
  | forbidden
  | expiredGone
  | okConfirmed (b : Booking)
  | serverError
deriving DecidableEq, Repr

/-- `POST /bookings/:ticketId/confirm`: validate the payment fields, fetch the
booking (404 if absent), check ownership (403), then check
`new Date(booking.expiresAt) < new Date()` — with no status guard — and on
that test delete the booking via `cancelBooking` and answer 410; otherwise
call `confirmBooking`.  A service throw is caught and answered as 500 with no
state change on the caught path. -/
def postConfirm (s : Store) (tid uid : Nat) (paymentFieldsPresent : Bool)
    (pay : PaymentInfo) (now : Time) : ConfirmRes × Store :=
  if !paymentFieldsPresent then (.badRequest, s)
  else
    match findBooking s tid with
    | none => (.notFound, s)
    | some booking =>
      if booking.userId != uid then (.forbidden, s)
      else if jsDateLtNow booking.expiresAt now then
        match cancelBooking s tid now with
        | .ok sAfter => (.expiredGone, sAfter)
        | .error _ => (.serverError, s)
      else
        match confirmBooking s tid pay now with
        | .ok (b, sAfter) => (.okConfirmed b, sAfter)
        | .error _ => (.serverError, s)

/-- Result of `DELETE /bookings/:ticketId`. -/
inductive CancelRes where
  | notFound
  | forbidden
  | okCancelled
  | serverError
deriving DecidableEq, Repr

/-- `DELETE /bookings/:ticketId`: fetch the booking (404 if absent), check
ownership (403), then call `cancelBooking`; a service throw is caught and
answered as 500 with no state change. -/
def deleteBookingRoute (s : Store) (tid uid : Nat) (now : Time) : CancelRes × Store :=
  match findBooking s tid with
  | none => (.notFound, s)
  | some booking =>
    if booking.userId != uid then (.forbidden, s)
    else
      match cancelBooking s tid now with
      | .ok sAfter => (.okCancelled, sAfter)
      | .error _ => (.serverError, s)

/-- Characterization of the bookings the sweeper targets, in the claim's
terms: status PENDING with a present hold deadline strictly before `now`. -/
def sweptTarget (b : Booking) (now : Time) : Bool :=
  match b.status, b.expiresAt with
  | .PENDING, .time t => decide (t < now)
  | _, _ => false

/-! ## Helper lemmas -/

theorem mem_foldl_dedup (l acc : List Nat) (x : Nat) :
    x ∈ l.foldl (fun acc x => if x ∈ acc then acc else acc ++ [x]) acc ↔
      x ∈ acc ∨ x ∈ l := by
  induction l generalizing acc with
  | nil => simp
  | cons y ys ih =>
    simp only [List.foldl_cons]
    rw [ih]
    by_cases h : y ∈ acc
    · simp only [if_pos h, List.mem_cons]
      constructor
      · intro hc
        exact hc.elim (fun h1 => Or.inl h1) (fun h1 => Or.inr (Or.inr h1))
      · rintro (h1 | h1 | h1)
        · exact Or.inl h1
        · exact Or.inl (h1 ▸ h)
        · exact Or.inr h1
    · simp only [if_neg h, List.mem_append, List.mem_singleton, List.mem_cons]
      tauto

theorem mem_jsSetDedup (l : List Nat) (x : Nat) : x ∈ jsSetDedup l ↔ x ∈ l := by
  unfold jsSetDedup
  rw [mem_foldl_dedup]
  simp

theorem mem_foldl_seats (l : List Booking) (acc : List Nat) (x : Nat) :
    x ∈ l.foldl (fun acc t => acc ++ t.takenSeats) acc ↔
      x ∈ acc ∨ ∃ b ∈ l, x ∈ b.takenSeats := by
  induction l generalizing acc with
  | nil => simp
  | cons b bs ih =>
    simp only [List.foldl_cons]
    rw [ih]
    simp only [List.mem_append, List.mem_cons]
    constructor
    · rintro ((h1 | h1) | ⟨c, hc, h1⟩)
      · exact Or.inl h1
      · exact Or.inr ⟨b, Or.inl rfl, h1⟩
      · exact Or.inr ⟨c, Or.inr hc, h1⟩
    · rintro (h1 | ⟨c, (rfl | hc), h1⟩)
      · exact Or.inl (Or.inl h1)
      · exact Or.inl (Or.inr h1)
      · exact Or.inr ⟨c, hc, h1⟩

/-- Membership in `getBookedSeats`: a seat is returned exactly when it is a
committed seat of the event or a seat of some PENDING booking for the event —
with no condition whatsoever on the booking's `expiresAt`. -/
theorem mem_getBookedSeats (s : Store) (eid : Nat) (ev : Event)
    (hev : findEvent s eid = some ev) (x : Nat) :
    x ∈ getBookedSeats s eid ↔
      x ∈ ev.takenSeats ∨
        ∃ b ∈ s.bookings, b.eventId = eid ∧ b.status = .PENDING ∧ x ∈ b.takenSeats := by
  unfold getBookedSeats
  rw [hev]
  simp only
  rw [mem_jsSetDedup, List.mem_append, mem_foldl_seats]
  simp only [List.not_mem_nil, false_or, List.mem_filter, Bool.and_eq_true, beq_iff_eq,
    decide_eq_true_eq]
  constructor
  · rintro (h1 | ⟨b, ⟨hb, h2, h3⟩, h4⟩)
    · exact Or.inl h1
    · exact Or.inr ⟨b, hb, h2, h3, h4⟩
  · rintro (h1 | ⟨b, hb, h2, h3, h4⟩)
    · exact Or.inl h1
    · exact Or.inr ⟨b, ⟨hb, h2, h3⟩, h4⟩

/-- A `find?` by key over a list mapped by a key-preserving update of the
matching entries returns the update of the original `find?` result. -/
theorem find?_map_keyed {α : Type} (l : List α) (key : α → Nat) (k : Nat) (f : α → α)
    (hf : ∀ a, key (f a) = key a) :
    (l.map (fun a => if key a == k then f a else a)).find? (fun a => key a == k)
      = (l.find? (fun a => key a == k)).map f := by
  induction l with
  | nil => rfl
  | cons a as ih =>
    simp only [List.map_cons]
    cases h : (key a == k) with
    | true =>
      have hfa : (key (f a) == k) = true := by rw [hf]; exact h
      simp [List.find?_cons, h, hfa]
    | false =>
      have hfa : (key (f a) == k) = false := by rw [hf]; exact h
      simp only [Bool.false_eq_true, ite_false, List.find?_cons, h, ih]

theorem mem_foldl_del (del : List Booking) (init : List Booking) (b : Booking) :
    b ∈ del.foldl (fun acc t => acc.filter (fun c => c.id != t.id)) init ↔
      b ∈ init ∧ ∀ t ∈ del, b.id ≠ t.id := by
  induction del generalizing init with
  | nil => simp
  | cons t ts ih =>
    simp only [List.foldl_cons]
    rw [ih]
    simp only [List.mem_filter, bne_iff_ne, ne_eq, List.mem_cons]
    constructor
    · rintro ⟨⟨h1, h2⟩, h3⟩
      refine ⟨h1, ?_⟩
      rintro u (rfl | hu)
      · exact h2
      · exact h3 u hu
    · rintro ⟨h1, h2⟩
      exact ⟨⟨h1, h2 t (Or.inl rfl)⟩, fun u hu => h2 u (Or.inr hu)⟩

/-- The scan condition re-filtered through `isExpired` coincides with
`sweptTarget`. -/
theorem scan_filter_eq_sweptTarget (b : Booking) (now : Time) :
    (isExpired b now && (decide (b.status = .PENDING) && dynamoExpiresLt b.expiresAt now))
      = sweptTarget b now := by
  unfold dynamoExpiresLt isExpired sweptTarget
  cases hst : b.status <;> cases he : b.expiresAt <;> simp [hst, he]

/-! ## Claim C1 -/

/-- Fixture for C1: a PENDING booking whose hold deadline (5) is already past
at read time (10): logically expired, not yet swept. -/
def bFix1 : Booking :=
  { id := 11, eventId := 3, userId := 9, takenSeats := [5], pricePerSeat := 0,
    name := "", email := "", phoneNumber := "", status := .PENDING,
    purchaseDate := some 1, refundedAt := none, paymentInfo := none,
    expiresAt := .time 5, createdAt := 1, updatedAt := 1 }

def evFix1 : Event := { id := 3, takenSeats := [], updatedAt := 0 }

def sFix1 : Store := { bookings := [bFix1], events := [evFix1] }

/-- Claim C1, counterexample: at time 10 the booking `bFix1` is logically
expired by the model's own `isExpired`, yet `getBookedSeats` still returns its
seat 5 — the unavailable-seat computation does not exclude expired unswept
holds, contrary to the claim. -/
theorem getBookedSeats_counts_expired_hold_cex :
    isExpired bFix1 10 = true ∧ getBookedSeats sFix1 3 = [5] ∧ 5 ∈ getBookedSeats sFix1 3 := by
  refine ⟨rfl, rfl, ?_⟩
  decide

/-- Claim C1, amended: `getBookedSeats` returns exactly the event's committed
`takenSeats` together with the seats of every booking for the event whose
status is PENDING, with no condition on `expiresAt` — a logically expired but
not-yet-swept hold still contributes its seats; such seats stop counting only
once the sweeper deletes the booking. -/
theorem getBookedSeats_ignores_expiry (s : Store) (eid : Nat) (ev : Event)
    (hev : findEvent s eid = some ev) (x : Nat) :
    x ∈ getBookedSeats s eid ↔
      x ∈ ev.takenSeats ∨
        ∃ b ∈ s.bookings, b.eventId = eid ∧ b.status = .PENDING ∧ x ∈ b.takenSeats :=
  mem_getBookedSeats s eid ev hev x

/-- Witness for C1's amended theorem at the concrete fixture. -/
theorem getBookedSeats_ignores_expiry_witness :
    5 ∈ getBookedSeats sFix1 3 ↔
      5 ∈ evFix1.takenSeats ∨
        ∃ b ∈ sFix1.bookings, b.eventId = 3 ∧ b.status = .PENDING ∧ 5 ∈ b.takenSeats :=
  getBookedSeats_ignores_expiry sFix1 3 evFix1 rfl 5

/-! ## Claim C3 -/

def payFix3 : PaymentInfo :=
  { cardLastFour := "4242", cardholderName := "A", paymentDate := 100 }

/-- Fixture for C3: a booking that is already CONFIRMED — `confirmBooking`
wrote `expiresAt = null` — whose seats [7, 8] sit in the event's
`takenSeats`. -/
def bFix3 : Booking :=
  { id := 5, eventId := 1, userId := 2, takenSeats := [7, 8], pricePerSeat := 10,
    name := "", email := "", phoneNumber := "", status := .CONFIRMED,
    purchaseDate := some 50, refundedAt := none, paymentInfo := some payFix3,
    expiresAt := .nullv, createdAt := 40, updatedAt := 50 }

def evFix3 : Event := { id := 1, takenSeats := [7, 8], updatedAt := 50 }

def sFix3 : Store := { bookings := [bFix3], events := [evFix3] }

/-- Claim C3, failing input: re-confirming an already CONFIRMED booking.  The
booking is not expired by the model's own `isExpired`, and the claim requires
an InvalidStateError leaving booking and event unchanged; but the route's
unguarded check `new Date(booking.expiresAt) < new Date()` coerces the
`null` expiry to the epoch, treats the CONFIRMED booking as expired, cancels
it — deleting the booking and stripping its seats [7, 8] from the event — and
answers 410. -/
theorem confirm_route_deletes_confirmed_booking :
    bFix3.status = .CONFIRMED ∧
    isExpired bFix3 100 = false ∧
    postConfirm sFix3 5 2 true payFix3 100 =
      (.expiredGone,
       { bookings := [], events := [{ id := 1, takenSeats := [], updatedAt := 100 }] }) := by
  refine ⟨rfl, rfl, ?_⟩
  rfl

/-! ## Claim C2 -/

/-- Claim C2: confirming a booking that exists, is PENDING and whose hold has
not expired sets its status to CONFIRMED, records the payment reference and a
confirmation timestamp (`purchaseDate = now`), clears the expiry field to
`null`, and appends exactly the booking's seats to the event's `takenSeats`;
afterwards the unavailable-seat set of the event is unchanged as a set. -/
theorem confirmBooking_pending_unexpired
    (s : Store) (tid : Nat) (pay : PaymentInfo) (now : Time) (b : Booking) (ev : Event)
    (hb : findBooking s tid = some b)
    (hbu : ∀ x ∈ s.bookings, x.id = b.id → x = b)
    (hst : b.status = .PENDING)
    (hexp : isExpired b now = false)
    (hev : findEvent s b.eventId = some ev) :
    ∃ sAfter, confirmBooking s tid pay now = .ok (applyConfirmUpdate pay now b, sAfter) ∧
      (applyConfirmUpdate pay now b).status = .CONFIRMED ∧
      (applyConfirmUpdate pay now b).paymentInfo = some pay ∧
      (applyConfirmUpdate pay now b).purchaseDate = some now ∧
      (applyConfirmUpdate pay now b).expiresAt = .nullv ∧
      findEvent sAfter b.eventId =
        some { ev with takenSeats := ev.takenSeats ++ b.takenSeats, updatedAt := now } ∧
      (∀ x, x ∈ getBookedSeats sAfter b.eventId ↔ x ∈ getBookedSeats s b.eventId) := by
  have hb' : s.bookings.find? (fun c => c.id == tid) = some b := hb
  have hev' : s.events.find? (fun e => e.id == b.eventId) = some ev := hev
  have hbmem : b ∈ s.bookings := List.mem_of_find?_eq_some hb'
  have htid0 := List.find?_some (p := fun (c : Booking) => c.id == tid) hb'
  simp only at htid0
  have htid : b.id = tid := beq_iff_eq.mp htid0
  have hcan : canBeConfirmed b now = true := by
    unfold canBeConfirmed
    rw [hexp, hst]
    rfl
  have hany : s.events.any (fun e => e.id == b.eventId) = true := by
    rw [List.any_eq_true]
    exact ⟨ev, List.mem_of_find?_eq_some hev',
      List.find?_some (p := fun (e : Event) => e.id == b.eventId) hev'⟩
  have hevAfter : findEvent
      { bookings := s.bookings.map (fun c => if c.id == tid then applyConfirmUpdate pay now c else c),
        events := s.events.map (fun e =>
          if e.id == b.eventId then commitSeats e b.takenSeats now else e) } b.eventId =
      some (commitSeats ev b.takenSeats now) := by
    unfold findEvent
    have hkey := find?_map_keyed s.events Event.id b.eventId
      (fun e => commitSeats e b.takenSeats now) (fun _ => rfl)
    simp only at hkey
    rw [hkey, hev']
    rfl
  refine ⟨{ bookings := s.bookings.map (fun c => if c.id == tid then applyConfirmUpdate pay now c else c),
            events := s.events.map (fun e =>
              if e.id == b.eventId then commitSeats e b.takenSeats now else e) },
    ?_, rfl, rfl, rfl, rfl, hevAfter, ?_⟩
  · unfold confirmBooking
    rw [hb]
    simp only [hcan, Bool.not_true, Bool.false_eq_true, if_false, hany, if_true]
  · intro x
    rw [mem_getBookedSeats _ _ _ hevAfter x, mem_getBookedSeats _ _ _ hev x]
    simp only [commitSeats, List.mem_append, List.mem_map]
    constructor
    · rintro ((h1 | h1) | ⟨c, ⟨c0, hc0, rfl⟩, h2, h3, h4⟩)
      · exact Or.inl h1
      · exact Or.inr ⟨b, hbmem, rfl, hst, h1⟩
      · by_cases hid : c0.id = tid
        · exfalso
          have : (c0.id == tid) = true := beq_iff_eq.mpr hid
          simp only [this, if_true] at h3
          exact absurd h3 (by simp [applyConfirmUpdate])
        · have : (c0.id == tid) = false := beq_eq_false_iff_ne.mpr hid
          simp only [this, Bool.false_eq_true, if_false] at h2 h3 h4
          exact Or.inr ⟨c0, hc0, h2, h3, h4⟩
    · rintro (h1 | ⟨c, hc, h2, h3, h4⟩)
      · exact Or.inl (Or.inl h1)
      · by_cases hid : c.id = tid
        · have hcb : c = b := hbu c hc (hid.trans htid.symm)
          exact Or.inl (Or.inr (hcb ▸ h4))
        · have hne : (c.id == tid) = false := beq_eq_false_iff_ne.mpr hid
          refine Or.inr ⟨c, ⟨c, hc, ?_⟩, h2, h3, h4⟩
          simp only [hne, Bool.false_eq_true, if_false]

/-- Fixture for C2's witness: a live PENDING hold on seats [1, 2]. -/
def payFix2 : PaymentInfo :=
  { cardLastFour := "1111", cardholderName := "B", paymentDate := 100 }

def bFix2 : Booking :=
  { id := 5, eventId := 1, userId := 2, takenSeats := [1, 2], pricePerSeat := 10,
    name := "", email := "", phoneNumber := "", status := .PENDING,
    purchaseDate := some 60, refundedAt := none, paymentInfo := none,
    expiresAt := .time 200, createdAt := 60, updatedAt := 60 }

def evFix2 : Event := { id := 1, takenSeats := [], updatedAt := 0 }

def sFix2 : Store := { bookings := [bFix2], events := [evFix2] }

/-- Witness for C2 at the concrete fixture. -/
theorem confirmBooking_pending_unexpired_witness :
    ∃ sAfter, confirmBooking sFix2 5 payFix2 100 =
        .ok (applyConfirmUpdate payFix2 100 bFix2, sAfter) ∧
      findEvent sAfter 1 = some { id := 1, takenSeats := [1, 2], updatedAt := 100 } ∧
      (∀ x, x ∈ getBookedSeats sAfter 1 ↔ x ∈ getBookedSeats sFix2 1) := by
  obtain ⟨sA, h1, _, _, _, _, h6, h7⟩ :=
    confirmBooking_pending_unexpired sFix2 5 payFix2 100 bFix2 evFix2 rfl
      (by decide) rfl rfl rfl
  exact ⟨sA, h1, h6, h7⟩

/-! ## Claims C4 and C10: create hold -/

theorem postBooking_created
    (s : Store) (input : CreateInput) (uid freshId holdMinutes : Nat)
    (emailValid : String → Bool) (now : Time) (eid : Nat) (seats : List Nat)
    (heid : input.eventId = some eid) (hseats : input.seats = some seats)
    (hne : seats ≠ []) (hemail : input.email = "" ∨ emailValid input.email = true)
    (hnoconf : ∀ x ∈ seats, x ∉ getBookedSeats s eid) :
    ∃ b, createBooking input uid freshId eid seats holdMinutes emailValid now = some b ∧
      postBooking s input uid freshId holdMinutes emailValid now =
        (.created b, { s with bookings := s.bookings ++ [b] }) ∧
      b.status = .PENDING ∧
      b.expiresAt = .time (now + holdMinutes * 60000) ∧
      b.pricePerSeat = input.pricePerSeat.getD 0 := by
  have hval : validateBooking emailValid input.email seats = true := by
    unfold validateBooking
    rcases hemail with h | h
    · simp [h, hne]
    · simp [h, hne]
  have hcb : createBooking input uid freshId eid seats holdMinutes emailValid now =
      some { id := freshId, eventId := eid, userId := uid, takenSeats := seats,
             pricePerSeat := input.pricePerSeat.getD 0, name := input.name,
             email := input.email, phoneNumber := "", status := .PENDING,
             purchaseDate := some now, refundedAt := none, paymentInfo := none,
             expiresAt := .time (now + holdMinutes * 60000),
             createdAt := now, updatedAt := now } := by
    unfold createBooking
    rw [hval]
    rfl
  refine ⟨_, hcb, ?_, rfl, rfl, rfl⟩
  unfold postBooking
  rw [heid, hseats]
  have hempty : seats.isEmpty = false := by
    cases seats with
    | nil => exact absurd rfl hne
    | cons a l => rfl
  have hfilter : seats.filter (fun seat => (getBookedSeats s eid).contains seat) = [] := by
    rw [List.filter_eq_nil_iff]
    intro a ha
    exact fun hc => hnoconf a ha (List.elem_iff.mp hc)
  simp only [hempty, Bool.false_eq_true, if_false, hfilter, List.isEmpty_nil, if_true, hcb]

/-- Claim C4: for a well-formed request (references present, non-empty seat
list, empty-or-format-valid email) whose seats are all free at check time, a
booking is persisted with status PENDING and `expiresAt = now + holdMinutes`
(default configuration 30 minutes); when some requested seat is already
booked the route answers `SeatConflictError` naming exactly the overlapping
seats and persists nothing; a missing event id, missing seat array or empty
seat list is rejected as a `ValidationError`; and a request whose non-empty
email fails the Joi format check makes `createBooking` throw (route 500) with
nothing persisted. -/
theorem createHold_spec
    (s : Store) (input : CreateInput) (uid freshId holdMinutes : Nat)
    (emailValid : String → Bool) (now : Time) :
    (input.eventId = none ∨ input.seats = none ∨ input.seats = some [] →
        postBooking s input uid freshId holdMinutes emailValid now = (.validationError, s))
  ∧ (∀ eid seats, input.eventId = some eid → input.seats = some seats → seats ≠ [] →
      ((input.email = "" ∨ emailValid input.email = true) →
        (∀ x ∈ seats, x ∉ getBookedSeats s eid) →
          ∃ b, createBooking input uid freshId eid seats holdMinutes emailValid now = some b ∧
            postBooking s input uid freshId holdMinutes emailValid now =
              (.created b, { s with bookings := s.bookings ++ [b] }) ∧
            b.status = .PENDING ∧
            b.expiresAt = .time (now + holdMinutes * 60000))
    ∧ ((∃ x ∈ seats, x ∈ getBookedSeats s eid) →
          postBooking s input uid freshId holdMinutes emailValid now =
            (.seatConflict (seats.filter (fun x => (getBookedSeats s eid).contains x)), s) ∧
          seats.filter (fun x => (getBookedSeats s eid).contains x) ≠ [] ∧
          ∀ x ∈ seats.filter (fun x => (getBookedSeats s eid).contains x),
            x ∈ seats ∧ x ∈ getBookedSeats s eid)
    ∧ (input.email ≠ "" → emailValid input.email = false →
        (∀ x ∈ seats, x ∉ getBookedSeats s eid) →
          postBooking s input uid freshId holdMinutes emailValid now = (.serverError, s))) := by
  constructor
  · rintro (h | h | h)
    · cases hS : input.seats with
      | none =>
        unfold postBooking
        rw [h, hS]
      | some l =>
        unfold postBooking
        rw [h, hS]
    · cases hE : input.eventId with
      | none =>
        unfold postBooking
        rw [hE, h]
      | some e =>
        unfold postBooking
        rw [hE, h]
    · cases hE : input.eventId with
      | none =>
        unfold postBooking
        rw [hE, h]
      | some e =>
        unfold postBooking
        rw [hE, h]
        rfl
  · intro eid seats heid hseats hne
    refine ⟨?_, ?_, ?_⟩
    · intro hemail hnoconf
      obtain ⟨b, h1, h2, h3, h4, _⟩ :=
        postBooking_created s input uid freshId holdMinutes emailValid now eid seats
          heid hseats hne hemail hnoconf
      exact ⟨b, h1, h2, h3, h4⟩
    · rintro ⟨x, hx, hbx⟩
      have hmemf : x ∈ seats.filter (fun x => (getBookedSeats s eid).contains x) :=
        List.mem_filter.mpr ⟨hx, List.elem_iff.mpr hbx⟩
      have hfne : seats.filter (fun x => (getBookedSeats s eid).contains x) ≠ [] :=
        List.ne_nil_of_mem hmemf
      have hempty : seats.isEmpty = false := by
        cases seats with
        | nil => exact absurd rfl hne
        | cons a l => rfl
      have hfe : (seats.filter (fun x => (getBookedSeats s eid).contains x)).isEmpty = false := by
        cases hh : seats.filter (fun x => (getBookedSeats s eid).contains x) with
        | nil => exact absurd hh hfne
        | cons a l => rfl
      refine ⟨?_, hfne, ?_⟩
      · unfold postBooking
        rw [heid, hseats]
        simp only [hempty, Bool.false_eq_true, if_false, hfe]
      · intro y hy
        have hm := List.mem_filter.mp hy
        exact ⟨hm.1, List.elem_iff.mp hm.2⟩
    · intro hne2 hbad hnoconf
      have hval : validateBooking emailValid input.email seats = false := by
        unfold validateBooking
        have he : (input.email == "") = false := by
          cases hq : (input.email == "") with
          | false => rfl
          | true => exact absurd (beq_iff_eq.mp hq) hne2
        simp [he, hbad]
      have hcb : createBooking input uid freshId eid seats holdMinutes emailValid now = none := by
        unfold createBooking
        rw [hval]
        rfl
      have hempty : seats.isEmpty = false := by
        cases seats with
        | nil => exact absurd rfl hne
        | cons a l => rfl
      have hfilter : seats.filter (fun seat => (getBookedSeats s eid).contains seat) = [] := by
        rw [List.filter_eq_nil_iff]
        intro a ha
        exact fun hc => hnoconf a ha (List.elem_iff.mp hc)
      unfold postBooking
      rw [heid, hseats]
      simp only [hempty, Bool.false_eq_true, if_false, hfilter, List.isEmpty_nil, if_true, hcb]

/-- Fixture for C4's witness: event 1 already has seats [1, 2] taken; the
request asks for the free seats [3, 4] with an empty email (allowed by
`allow('')` even under a format checker that accepts nothing). -/
def inpFix4 : CreateInput :=
  { eventId := some 1, seats := some [3, 4], pricePerSeat := some 20, status := none,
    name := "n", email := "", phone := "p" }

def evFix4 : Event := { id := 1, takenSeats := [1, 2], updatedAt := 0 }

def sFix4 : Store := { bookings := [], events := [evFix4] }

/-- Witness for C4 at the concrete fixture. -/
theorem createHold_spec_witness :
    ∃ b, createBooking inpFix4 9 77 1 [3, 4] 30 (fun _ => false) 1000 = some b ∧
      postBooking sFix4 inpFix4 9 77 30 (fun _ => false) 1000 =
        (.created b, { sFix4 with bookings := sFix4.bookings ++ [b] }) ∧
      b.status = .PENDING ∧
      b.expiresAt = .time (1000 + 30 * 60000) :=
  ((createHold_spec sFix4 inpFix4 9 77 30 (fun _ => false) 1000).2 1 [3, 4] rfl rfl
    (by decide)).1 (Or.inl rfl) (by decide)

/-- Claim C10: whatever status the caller supplies (the service builds the
stored item with `status: 'PENDING'` and never reads a caller status), the
persisted booking is PENDING; and a missing `pricePerSeat` is silently
replaced by 0 (`pricePerSeat || 0`), which passes the Joi `min(0)` check, so
a hold request without a price passes validation and succeeds with price
0. -/
theorem createBooking_forces_pending_and_defaults_price
    (s : Store) (input : CreateInput) (uid freshId holdMinutes : Nat)
    (emailValid : String → Bool) (now : Time) (eid : Nat) (seats : List Nat)
    (heid : input.eventId = some eid) (hseats : input.seats = some seats)
    (hne : seats ≠ []) (hemail : input.email = "" ∨ emailValid input.email = true)
    (hnoconf : ∀ x ∈ seats, x ∉ getBookedSeats s eid) :
    validateBooking emailValid input.email seats = true ∧
    ∃ b, createBooking input uid freshId eid seats holdMinutes emailValid now = some b ∧
      postBooking s input uid freshId holdMinutes emailValid now =
        (.created b, { s with bookings := s.bookings ++ [b] }) ∧
      b.status = .PENDING ∧
      b.pricePerSeat = input.pricePerSeat.getD 0 ∧
      (input.pricePerSeat = none → b.pricePerSeat = 0) := by
  have hval : validateBooking emailValid input.email seats = true := by
    unfold validateBooking
    rcases hemail with h | h
    · simp [h, hne]
    · simp [h, hne]
  obtain ⟨b, h1, h2, h3, _, h5⟩ :=
    postBooking_created s input uid freshId holdMinutes emailValid now eid seats
      heid hseats hne hemail hnoconf
  refine ⟨hval, b, h1, h2, h3, h5, ?_⟩
  intro hp
  rw [h5, hp]
  rfl

/-- Fixture for C10's witness: the caller supplies `status: CONFIRMED` and no
price, with an empty email under a format checker that accepts nothing. -/
def inpFix10 : CreateInput :=
  { eventId := some 2, seats := some [6], pricePerSeat := none, status := some .CONFIRMED,
    name := "", email := "", phone := "" }

def evFix10 : Event := { id := 2, takenSeats := [], updatedAt := 0 }

def sFix10 : Store := { bookings := [], events := [evFix10] }

/-- Witness for C10 at the concrete fixture. -/
theorem createBooking_forces_pending_witness :
    validateBooking (fun _ => false) inpFix10.email [6] = true ∧
    ∃ b, createBooking inpFix10 4 42 2 [6] 30 (fun _ => false) 500 = some b ∧
      postBooking sFix10 inpFix10 4 42 30 (fun _ => false) 500 =
        (.created b, { sFix10 with bookings := sFix10.bookings ++ [b] }) ∧
      b.status = .PENDING ∧
      b.pricePerSeat = inpFix10.pricePerSeat.getD 0 ∧
      (inpFix10.pricePerSeat = none → b.pricePerSeat = 0) :=
  createBooking_forces_pending_and_defaults_price sFix10 inpFix10 4 42 30 (fun _ => false)
    500 2 [6] rfl rfl (by decide) (Or.inl rfl) (by decide)

/-! ## Claims C6 and C7: refund and cancel -/

theorem canBeRefunded_iff (b : Booking) (now : Time) :
    canBeRefunded b now = true ↔
      b.status = .CONFIRMED ∧ (now : Int) - (purchaseRef b : Int) ≤ refundWindowMs := by
  unfold canBeRefunded
  by_cases h : b.status = .CONFIRMED
  · simp [h]
  · simp [h]

/-- A seat survives `releaseSeats` exactly when it was taken and is not one of
the released booking's seats: the release is a set difference by exactly the
booking's seats. -/
theorem mem_releaseSeats (ev : Event) (seats : List Nat) (now : Time) (x : Nat) :
    x ∈ (releaseSeats ev seats now).takenSeats ↔ x ∈ ev.takenSeats ∧ x ∉ seats := by
  unfold releaseSeats
  rw [List.mem_filter]
  constructor
  · rintro ⟨h1, h2⟩
    refine ⟨h1, fun hm => ?_⟩
    have hc : seats.contains x = true := List.elem_iff.mpr hm
    rw [hc] at h2
    exact absurd h2 (by decide)
  · rintro ⟨h1, h2⟩
    refine ⟨h1, ?_⟩
    cases hc : seats.contains x with
    | false => rfl
    | true => exact absurd (List.elem_iff.mp hc) h2

theorem findBooking_filter_ne (l : List Booking) (tid : Nat) :
    (l.filter (fun c => c.id != tid)).find? (fun c => c.id == tid) = none := by
  rw [List.find?_eq_none]
  intro x hx
  have hne := (List.mem_filter.mp hx).2
  simp only [bne_iff_ne] at hne
  simp [hne]

/-- Claim C6: refund succeeds iff the booking is CONFIRMED and the current
time is at most 24 hours past the purchase/confirmation timestamp; on success
the booking becomes REFUNDED with a refund timestamp and exactly its seats —
no others — are removed from the event's `takenSeats`; otherwise the service
throws NotEligibleError and changes nothing. -/
theorem refundBooking_spec
    (s : Store) (tid : Nat) (now : Time) (b : Booking) (ev : Event)
    (hb : findBooking s tid = some b)
    (hev : findEvent s b.eventId = some ev) :
    ((∃ r sA, refundBooking s tid now = (Except.ok r, sA)) ↔
        b.status = .CONFIRMED ∧ (now : Int) - (purchaseRef b : Int) ≤ refundWindowMs)
  ∧ (b.status = .CONFIRMED → (now : Int) - (purchaseRef b : Int) ≤ refundWindowMs →
      refundBooking s tid now =
        (Except.ok (applyRefundUpdate now b),
         { bookings := s.bookings.map (fun c => if c.id == tid then applyRefundUpdate now c else c),
           events := s.events.map (fun e =>
             if e.id == b.eventId then releaseSeats e b.takenSeats now else e) }) ∧
      (applyRefundUpdate now b).status = .REFUNDED ∧
      (applyRefundUpdate now b).refundedAt = some now ∧
      findBooking (refundBooking s tid now).2 tid = some (applyRefundUpdate now b) ∧
      findEvent (refundBooking s tid now).2 b.eventId = some (releaseSeats ev b.takenSeats now) ∧
      (∀ x, x ∈ (releaseSeats ev b.takenSeats now).takenSeats ↔
          x ∈ ev.takenSeats ∧ x ∉ b.takenSeats))
  ∧ (¬(b.status = .CONFIRMED ∧ (now : Int) - (purchaseRef b : Int) ≤ refundWindowMs) →
      refundBooking s tid now = (Except.error ServiceError.notEligible, s)) := by
  have hb' : s.bookings.find? (fun c => c.id == tid) = some b := hb
  have hev' : s.events.find? (fun e => e.id == b.eventId) = some ev := hev
  by_cases h : b.status = .CONFIRMED ∧ (now : Int) - (purchaseRef b : Int) ≤ refundWindowMs
  · have hcr : canBeRefunded b now = true := (canBeRefunded_iff b now).mpr h
    have hres : refundBooking s tid now =
        (Except.ok (applyRefundUpdate now b),
         { bookings := s.bookings.map (fun c => if c.id == tid then applyRefundUpdate now c else c),
           events := s.events.map (fun e =>
             if e.id == b.eventId then releaseSeats e b.takenSeats now else e) }) := by
      unfold refundBooking
      rw [hb]
      simp only [hcr, Bool.not_true, Bool.false_eq_true, if_false]
    refine ⟨⟨fun _ => h, fun _ => ⟨_, _, hres⟩⟩, ?_, fun hc => absurd h hc⟩
    intro _ _
    refine ⟨hres, rfl, rfl, ?_, ?_, fun x => mem_releaseSeats ev b.takenSeats now x⟩
    · rw [hres]
      unfold findBooking
      have hkey := find?_map_keyed s.bookings Booking.id tid (applyRefundUpdate now) (fun _ => rfl)
      simp only at hkey
      rw [hkey, hb']
      rfl
    · rw [hres]
      unfold findEvent
      have hkey := find?_map_keyed s.events Event.id b.eventId
        (fun e => releaseSeats e b.takenSeats now) (fun _ => rfl)
      simp only at hkey
      rw [hkey, hev']
      rfl
  · have hcr : canBeRefunded b now = false := by
      cases hc : canBeRefunded b now with
      | false => rfl
      | true => exact absurd ((canBeRefunded_iff b now).mp hc) h
    have hres : refundBooking s tid now = (Except.error ServiceError.notEligible, s) := by
      unfold refundBooking
      rw [hb]
      simp only [hcr, Bool.not_false, if_true]
    refine ⟨⟨?_, fun hh => absurd hh h⟩, fun h1 h2 => absurd ⟨h1, h2⟩ h, fun _ => hres⟩
    rintro ⟨r, sA, hr⟩
    rw [hres] at hr
    simp only [Prod.mk.injEq] at hr
    exact Except.noConfusion hr.1

/-- Fixture for C6's witness: a CONFIRMED booking refunded 1000 ms after
purchase, well inside the 24-hour window. -/
def bFix6 : Booking :=
  { id := 8, eventId := 4, userId := 3, takenSeats := [2, 9], pricePerSeat := 5,
    name := "", email := "", phoneNumber := "", status := .CONFIRMED,
    purchaseDate := some 1000, refundedAt := none, paymentInfo := none,
    expiresAt := .nullv, createdAt := 900, updatedAt := 1000 }

def evFix6 : Event := { id := 4, takenSeats := [2, 9, 11], updatedAt := 1000 }

def sFix6 : Store := { bookings := [bFix6], events := [evFix6] }

/-- Witness for C6 at the concrete fixture. -/
theorem refundBooking_spec_witness :
    refundBooking sFix6 8 2000 =
      (Except.ok (applyRefundUpdate 2000 bFix6),
       { bookings := sFix6.bookings.map (fun c => if c.id == 8 then applyRefundUpdate 2000 c else c),
         events := sFix6.events.map (fun e =>
           if e.id == 4 then releaseSeats e [2, 9] 2000 else e) }) ∧
    (applyRefundUpdate 2000 bFix6).status = .REFUNDED ∧
    (applyRefundUpdate 2000 bFix6).refundedAt = some 2000 ∧
    findBooking (refundBooking sFix6 8 2000).2 8 = some (applyRefundUpdate 2000 bFix6) ∧
    findEvent (refundBooking sFix6 8 2000).2 4 = some (releaseSeats evFix6 [2, 9] 2000) ∧
    (∀ x, x ∈ (releaseSeats evFix6 [2, 9] 2000).takenSeats ↔
        x ∈ evFix6.takenSeats ∧ x ∉ [2, 9]) :=
  (refundBooking_spec sFix6 8 2000 bFix6 evFix6 rfl rfl).2.1 rfl (by decide)

/-- Claim C7: cancelling a PENDING booking deletes the booking and leaves the
events table untouched; cancelling a CONFIRMED booking removes exactly its
seats from the event's `takenSeats` and deletes the booking; cancelling a
REFUNDED booking fails (`canBeCancelled` is false, the route answers 500) and
changes neither table. -/
theorem cancelBooking_spec
    (s : Store) (tid uid : Nat) (now : Time) (b : Booking)
    (hb : findBooking s tid = some b) :
    (b.status = .PENDING →
        cancelBooking s tid now =
          .ok { bookings := s.bookings.filter (fun c => c.id != tid), events := s.events } ∧
        findBooking { bookings := s.bookings.filter (fun c => c.id != tid),
                      events := s.events } tid = none)
  ∧ (∀ ev, b.status = .CONFIRMED → findEvent s b.eventId = some ev →
        cancelBooking s tid now =
          .ok { bookings := s.bookings.filter (fun c => c.id != tid),
                events := s.events.map (fun e =>
                  if e.id == b.eventId then releaseSeats e b.takenSeats now else e) } ∧
        findEvent { bookings := s.bookings.filter (fun c => c.id != tid),
                    events := s.events.map (fun e =>
                      if e.id == b.eventId then releaseSeats e b.takenSeats now else e) } b.eventId
          = some (releaseSeats ev b.takenSeats now) ∧
        findBooking { bookings := s.bookings.filter (fun c => c.id != tid),
                      events := s.events.map (fun e =>
                        if e.id == b.eventId then releaseSeats e b.takenSeats now else e) } tid
          = none ∧
        (∀ x, x ∈ (releaseSeats ev b.takenSeats now).takenSeats ↔
            x ∈ ev.takenSeats ∧ x ∉ b.takenSeats))
  ∧ (b.status = .REFUNDED → b.userId = uid →
        deleteBookingRoute s tid uid now = (.serverError, s)) := by
  refine ⟨?_, ?_, ?_⟩
  · intro hst
    have hcan : canBeCancelled b = true := by simp [canBeCancelled, hst]
    constructor
    · unfold cancelBooking
      rw [hb]
      simp only [hcan, Bool.not_true, Bool.false_eq_true, if_false, hst]
      simp
    · exact findBooking_filter_ne s.bookings tid
  · intro ev hst hev
    have hev' : s.events.find? (fun e => e.id == b.eventId) = some ev := hev
    have hcan : canBeCancelled b = true := by simp [canBeCancelled, hst]
    refine ⟨?_, ?_, findBooking_filter_ne s.bookings tid,
      fun x => mem_releaseSeats ev b.takenSeats now x⟩
    · unfold cancelBooking
      rw [hb]
      simp only [hcan, Bool.not_true, Bool.false_eq_true, if_false, hst, if_true]
    · unfold findEvent
      have hkey := find?_map_keyed s.events Event.id b.eventId
        (fun e => releaseSeats e b.takenSeats now) (fun _ => rfl)
      simp only at hkey
      rw [hkey, hev']
      rfl
  · intro hst huid
    have hcan : canBeCancelled b = false := by simp [canBeCancelled, hst]
    have hcc : cancelBooking s tid now = .error .cannotCancel := by
      unfold cancelBooking
      rw [hb]
      simp only [hcan, Bool.not_false, if_true]
    unfold deleteBookingRoute
    rw [hb]
    simp only [huid, bne_self_eq_false, Bool.false_eq_true, if_false, hcc]

/-- Fixture for C7's witness: a PENDING hold to cancel. -/
def bFix7 : Booking :=
  { id := 3, eventId := 9, userId := 1, takenSeats := [4], pricePerSeat := 7,
    name := "", email := "", phoneNumber := "", status := .PENDING,
    purchaseDate := some 10, refundedAt := none, paymentInfo := none,
    expiresAt := .time 100, createdAt := 10, updatedAt := 10 }

def evFix7 : Event := { id := 9, takenSeats := [], updatedAt := 0 }

def sFix7 : Store := { bookings := [bFix7], events := [evFix7] }

/-- Witness for C7 at the concrete fixture. -/
theorem cancelBooking_spec_witness :
    cancelBooking sFix7 3 50 =
      .ok { bookings := sFix7.bookings.filter (fun c => c.id != 3), events := sFix7.events } ∧
    findBooking { bookings := sFix7.bookings.filter (fun c => c.id != 3),
                  events := sFix7.events } 3 = none :=
  (cancelBooking_spec sFix7 3 1 50 bFix7 rfl).1 rfl

/-! ## Claim C5: seat commit and release algebra -/

def evFix5 : Event := { id := 2, takenSeats := [1, 2], updatedAt := 0 }

/-- Claim C5, counterexample: the event-side commit is a DynamoDB
`list_append`, not a set union — committing seat set [3] twice appends a
duplicate entry, so the stored `takenSeats` after two commits differs from
the stored value after one: re-committing already-committed seats is not a
stored no-op. -/
theorem commitSeats_twice_cex :
    (commitSeats (commitSeats evFix5 [3] 7) [3] 8).takenSeats = [1, 2, 3, 3] ∧
    (commitSeats evFix5 [3] 7).takenSeats = [1, 2, 3] ∧
    (commitSeats (commitSeats evFix5 [3] 7) [3] 8).takenSeats ≠
      (commitSeats evFix5 [3] 7).takenSeats :=
  ⟨rfl, rfl, by decide⟩

/-- Claim C5, amended: `releaseSeats` (set difference via `filter`) is
idempotent exactly as stored, and `commitSeats` (a list append) is idempotent
only up to set membership — after committing the same seat set twice exactly
the same seats are present as after committing it once, though the stored
list gains duplicate entries; neither operation signals an error. -/
theorem release_idem_commit_set_idem (ev : Event) (seats : List Nat) (t1 t2 : Time) :
    (releaseSeats (releaseSeats ev seats t1) seats t2).takenSeats
        = (releaseSeats ev seats t1).takenSeats
  ∧ (∀ x, x ∈ (commitSeats (commitSeats ev seats t1) seats t2).takenSeats
        ↔ x ∈ (commitSeats ev seats t1).takenSeats) := by
  constructor
  · simp [releaseSeats, List.filter_filter, Bool.and_self]
  · intro x
    simp only [commitSeats, List.mem_append]
    tauto

/-! ## Claims C8 and C9: the expiry sweeper -/

/-- Membership in the bookings table after one cleanup pass: a stored booking
survives unless the sweep targeted it (PENDING with a deadline strictly
before `now`) and its delete succeeded. -/
theorem mem_cleanup_bookings (s : Store) (now : Time) (deleteOk : Nat → Bool)
    (hnodup : (s.bookings.map (fun b => b.id)).Nodup) (b : Booking) (hmem : b ∈ s.bookings) :
    b ∈ (cleanupExpiredBookings s now deleteOk).1.bookings ↔
      ¬(sweptTarget b now = true ∧ deleteOk b.id = true) := by
  unfold cleanupExpiredBookings
  simp only
  rw [mem_foldl_del]
  constructor
  · rintro ⟨_, hall⟩ ⟨htar, hok⟩
    refine hall b ?_ rfl
    refine List.mem_filter.mpr ⟨?_, hok⟩
    refine List.mem_filter.mpr ⟨List.mem_filter.mpr ⟨hmem, ?_⟩, ?_⟩
    · have hpt := scan_filter_eq_sweptTarget b now
      rw [htar] at hpt
      exact ((Bool.and_eq_true _ _).mp hpt).2
    · have hpt := scan_filter_eq_sweptTarget b now
      rw [htar] at hpt
      exact ((Bool.and_eq_true _ _).mp hpt).1
  · intro hneg
    refine ⟨hmem, ?_⟩
    intro t ht hid
    have ht1 := List.mem_filter.mp ht
    have ht2 := List.mem_filter.mp ht1.1
    have ht3 := List.mem_filter.mp ht2.1
    have htb : t = b := List.inj_on_of_nodup_map hnodup ht3.1 hmem hid.symm
    subst htb
    have htar : sweptTarget t now = true := by
      rw [← scan_filter_eq_sweptTarget]
      exact (Bool.and_eq_true _ _).mpr ⟨ht2.2, ht3.2⟩
    exact hneg ⟨htar, ht1.2⟩

/-- Claim C8: one sweep pass deletes exactly the bookings with status PENDING
and a hold deadline strictly before `now` whose delete succeeded, makes no
change on the event side, and reports the count of swept bookings when every
delete succeeds; each delete is issued independently, so by the per-booking
membership characterization a failed delete of one booking does not prevent
any other expired booking from being swept. -/
theorem cleanup_spec (s : Store) (now : Time) (deleteOk : Nat → Bool)
    (hnodup : (s.bookings.map (fun b => b.id)).Nodup) :
    (cleanupExpiredBookings s now deleteOk).1.events = s.events
  ∧ (∀ b ∈ s.bookings,
      b ∈ (cleanupExpiredBookings s now deleteOk).1.bookings ↔
        ¬(sweptTarget b now = true ∧ deleteOk b.id = true))
  ∧ ((∀ b ∈ s.bookings, sweptTarget b now = true → deleteOk b.id = true) →
      (cleanupExpiredBookings s now deleteOk).2 =
        some (s.bookings.filter (fun b => sweptTarget b now)).length) := by
  have hexp : (s.bookings.filter
        (fun b => decide (b.status = .PENDING) && dynamoExpiresLt b.expiresAt now)).filter
          (fun b => isExpired b now)
      = s.bookings.filter (fun b => sweptTarget b now) := by
    rw [List.filter_filter]
    exact List.filter_congr (fun b _ => scan_filter_eq_sweptTarget b now)
  refine ⟨rfl, ?_, ?_⟩
  · exact fun b hb => mem_cleanup_bookings s now deleteOk hnodup b hb
  · intro hall
    have hcond : ((s.bookings.filter (fun b => sweptTarget b now)).all
        (fun b => deleteOk b.id)) = true := by
      rw [List.all_eq_true]
      intro x hx
      have hx1 := List.mem_filter.mp hx
      exact hall x hx1.1 hx1.2
    unfold cleanupExpiredBookings
    simp only [hexp, hcond, if_true]

/-- Fixture for C8's witness: an expired PENDING hold next to a CONFIRMED
booking. -/
def bFix8a : Booking :=
  { id := 1, eventId := 6, userId := 2, takenSeats := [3], pricePerSeat := 1,
    name := "", email := "", phoneNumber := "", status := .PENDING,
    purchaseDate := some 5, refundedAt := none, paymentInfo := none,
    expiresAt := .time 10, createdAt := 5, updatedAt := 5 }

def bFix8b : Booking :=
  { id := 2, eventId := 6, userId := 2, takenSeats := [4], pricePerSeat := 1,
    name := "", email := "", phoneNumber := "", status := .CONFIRMED,
    purchaseDate := some 5, refundedAt := none, paymentInfo := none,
    expiresAt := .nullv, createdAt := 5, updatedAt := 5 }

def evFix8 : Event := { id := 6, takenSeats := [4], updatedAt := 5 }

def sFix8 : Store := { bookings := [bFix8a, bFix8b], events := [evFix8] }

/-- Witness for C8 at the concrete fixture. -/
theorem cleanup_spec_witness :
    (cleanupExpiredBookings sFix8 100 (fun _ => true)).1.events = sFix8.events ∧
    (cleanupExpiredBookings sFix8 100 (fun _ => true)).2 =
      some (sFix8.bookings.filter (fun b => sweptTarget b 100)).length := by
  obtain ⟨h1, _, h3⟩ := cleanup_spec sFix8 100 (fun _ => true) (by decide)
  exact ⟨h1, h3 (fun b _ _ => rfl)⟩

/-- Claim C9: `isExpired` returns false for every booking whose status is not
PENDING or whose `expiresAt` is falsy (`null` or absent); consequently a
cleanup pass — which re-filters its scan results through `isExpired` before
deleting — never deletes a CONFIRMED or REFUNDED booking, even one carrying a
stale past `expiresAt` value. -/
theorem isExpired_guard_protects_nonpending :
    (∀ (b : Booking) (now : Time), b.status ≠ .PENDING → isExpired b now = false)
  ∧ (∀ (b : Booking) (now : Time), b.expiresAt = .nullv ∨ b.expiresAt = .absent →
        isExpired b now = false)
  ∧ (∀ (s : Store) (now : Time) (deleteOk : Nat → Bool) (b : Booking),
        (s.bookings.map (fun b => b.id)).Nodup → b ∈ s.bookings → b.status ≠ .PENDING →
        b ∈ (cleanupExpiredBookings s now deleteOk).1.bookings) := by
  refine ⟨?_, ?_, ?_⟩
  · intro b now h
    unfold isExpired
    simp [h]
  · intro b now h
    unfold isExpired
    rcases h with h | h <;> rw [h] <;> by_cases hst : b.status = .PENDING <;> simp [hst]
  · intro s now deleteOk b hnodup hmem hst
    rw [mem_cleanup_bookings s now deleteOk hnodup b hmem]
    rintro ⟨htar, _⟩
    unfold sweptTarget at htar
    rcases he : b.status with _ | _ | _ <;> rw [he] at htar
    · exact hst he
    · simp at htar
    · simp at htar

/-- Fixture for C9's witness: a CONFIRMED booking with a stale past
`expiresAt` survives a cleanup pass at time 100. -/
def bFix9 : Booking :=
  { id := 12, eventId := 6, userId := 2, takenSeats := [4], pricePerSeat := 1,
    name := "", email := "", phoneNumber := "", status := .CONFIRMED,
    purchaseDate := some 5, refundedAt := none, paymentInfo := none,
    expiresAt := .time 10, createdAt := 5, updatedAt := 5 }

def sFix9 : Store := { bookings := [bFix9], events := [] }

/-- Witness for C9 at the concrete fixture. -/
theorem isExpired_guard_protects_nonpending_witness :
    isExpired bFix9 100 = false ∧
    bFix9 ∈ (cleanupExpiredBookings sFix9 100 (fun _ => true)).1.bookings := by
  constructor
  · exact isExpired_guard_protects_nonpending.1 bFix9 100 (by decide)
  · exact isExpired_guard_protects_nonpending.2.2 sFix9 100 (fun _ => true) bFix9
      (by decide) (by decide) (by decide)

end Tixly
